import Mathlib

set_option maxHeartbeats 1000000
set_option maxRecDepth 8192

/-!
Shallow embedding of the browser-automation agent loop of the
open-chatgpt-atlas extension (sidepanel Gemini computer-use path and the
content-script action executor).  JavaScript numbers are modelled as
integers, dynamic response objects as a record of optional fields, and
every external interaction (model endpoint, message transport, confirm
dialogs, DOM) as an explicit environment supplying the response to the
k-th interaction of its kind.
-/

/-- JavaScript substring test, as in String.prototype.includes. -/
def containsSub (hay needle : String) : Bool :=
  decide (needle.toList <:+: hay.toList)

/-- JavaScript a || b on strings, where the empty string is falsy. -/
def jsStr (a b : String) : String := if a = "" then b else a

/-- JavaScript a || b where a may be undefined and the empty string is falsy. -/
def jsOrStr (a b : Option String) : Option String :=
  match a with
  | some s => if s = "" then b else some s
  | none => b

/-- JavaScript a || b on numbers, where 0 is falsy and undefined falls through.
JavaScript numbers appearing in this code path are modelled as integers. -/
def jsOrInt (a : Option ℤ) (b : ℤ) : ℤ :=
  match a with
  | some n => if n = 0 then b else n
  | none => b

/-- Lowercasing as used by the source on ASCII url and page text
(String.prototype.toLowerCase restricted to the ASCII range). -/
def lowerChar (c : Char) : Char :=
  if 'A' ≤ c ∧ c ≤ 'Z' then Char.ofNat (c.toNat + 32) else c

/-- ASCII-range lowercasing of a string. -/
def toLowerAscii (s : String) : String := String.mk (s.data.map lowerChar)

/-- Argument bag of a model-issued function call; each field is optional,
mirroring the dynamic args object of the source. -/
structure GArgs where
  x : Option ℤ := none
  y : Option ℤ := none
  coordinate : Option (ℤ × ℤ) := none
  text : Option String := none
  input : Option String := none
  content : Option String := none
  press_enter : Option Bool := none
  clear_before_typing : Option Bool := none
  direction : Option String := none
  amount : Option ℤ := none
  pixels : Option ℤ := none
  delta : Option ℤ := none
  magnitude : Option ℤ := none
  url : Option String := none
  address : Option String := none
  uri : Option String := none
  key : Option String := none
  keyCode : Option String := none
  keys : Option (List String) := none
  seconds : Option ℤ := none
  milliseconds : Option ℤ := none
  destination_x : Option ℤ := none
  destination_y : Option ℤ := none
deriving DecidableEq

/-- Viewport dimensions as reported by the page-context query. -/
structure Viewport where
  width : ℤ
  height : ℤ
deriving DecidableEq

/-- Dynamic response object travelling over the extension message channel
(tool results, screenshots, page context); every field optional. -/
structure JSResponse where
  error : Option String := none
  success : Option Bool := none
  message : Option String := none
  screenshot : Option String := none
  url : Option String := none
  text : Option String := none
  viewport : Option Viewport := none
  viewport_info : Option String := none
  userCancelled : Option Bool := none
  args : Option GArgs := none
deriving DecidableEq

/-! ### Safety policy engine (requiresUserConfirmation) -/

/-- One character of the regex class `[\s-]`. -/
def isSepChar (c : Char) : Bool := c.isWhitespace || c = '-'

/-- Consume four consecutive digits, returning the rest. -/
def fourDigits : List Char → Option (List Char)
  | a :: b :: c :: d :: rest =>
    if a.isDigit && b.isDigit && c.isDigit && d.isDigit then some rest else none
  | _ => none

/-- Consume an optional separator, per the `[\s-]?` regex piece. -/
def dropSep : List Char → List Char
  | [] => []
  | c :: rest => if isSepChar c then rest else c :: rest

/-- Match the credit-card digit pattern at the start of the character list. -/
def ccAt (cs : List Char) : Bool :=
  match fourDigits cs with
  | none => false
  | some r1 =>
    match fourDigits (dropSep r1) with
    | none => false
    | some r2 =>
      match fourDigits (dropSep r2) with
      | none => false
      | some r3 => (fourDigits (dropSep r3)).isSome

/-- Search the credit-card pattern anywhere in the list. -/
def ccSearch : List Char → Bool
  | [] => false
  | c :: rest => ccAt (c :: rest) || ccSearch rest

/-- JavaScript text.match of the credit-card regex of the source:
four groups of four digits with optional whitespace-or-dash separators. -/
def creditCardPattern (s : String) : Bool := ccSearch s.toList

/-- The alwaysConfirm list of the source. -/
def alwaysConfirmActions : List String := ["key_combination"]

/-- The isSensitivePage check: lowercased URL and page text are probed for
the exact substrings of the source (note the two lists differ). -/
def isSensitivePage (url pageText : String) : Bool :=
  containsSub url "checkout" || containsSub url "payment" || containsSub url "login" ||
  containsSub url "signin" || containsSub url "admin" || containsSub url "delete" ||
  containsSub url "remove" ||
  containsSub pageText "checkout" || containsSub pageText "payment" ||
  containsSub pageText "purchase" || containsSub pageText "confirm order" ||
  containsSub pageText "delete" || containsSub pageText "remove account"

/-- The isSensitiveInput check: guarded by the function name containing
the substring type. -/
def isSensitiveInput (functionName : String) (args : GArgs) (pageText : String) : Bool :=
  containsSub functionName "type" &&
    ((match args.text with
      | some t => containsSub (toLowerAscii t) "password"
      | none => false) ||
     (match args.text with
      | some t => creditCardPattern t
      | none => false) ||
     containsSub pageText "credit card" || containsSub pageText "cvv" ||
     containsSub pageText "social security")

/-- The isFormSubmission check. -/
def isFormSubmission (functionName : String) (args : GArgs) : Bool :=
  (functionName == "type_text_at") && (args.press_enter == some true)

/-- pageContext?.url?.toLowerCase() || '' of the source;
none stands for a failed (or error-shaped) page-context fetch. -/
def pageUrlOf (pc : Option JSResponse) : String :=
  match pc.bind (·.url) with
  | some u => toLowerAscii u
  | none => ""

/-- pageContext?.text?.toLowerCase() || '' of the source. -/
def pageTextOf (pc : Option JSResponse) : String :=
  match pc.bind (·.text) with
  | some t => toLowerAscii t
  | none => ""

/-- Whether the confirm dialog of requiresUserConfirmation is shown at all:
the disjunction of the four rule checks of the source. -/
def requiresConfirmationDecision (functionName : String) (args : GArgs)
    (pageContext : Option JSResponse) : Bool :=
  let url := pageUrlOf pageContext
  let pageText := pageTextOf pageContext
  alwaysConfirmActions.contains functionName ||
    isSensitivePage url pageText ||
    isSensitiveInput functionName args pageText ||
    isFormSubmission functionName args

/-- requiresUserConfirmation of the source: true exactly when the dialog is
shown and the user answers no (the window.confirm answer is a parameter). -/
def requiresUserConfirmation (functionName : String) (args : GArgs)
    (pageContext : Option JSResponse) (confirmAnswer : Bool) : Bool :=
  if requiresConfirmationDecision functionName args pageContext then ! confirmAnswer
  else false

/-! ### Coordinate scaling (scaleCoordinates) -/

/-- JavaScript Math.round applied to the exact quotient a / b, for positive b:
half-values round toward positive infinity (integer division on ℤ is
floor division).  Used to express Math.round((x / 1000) * w), whose exact
value is the rational (x * w) / 1000. -/
def mathRoundDiv (a b : ℤ) : ℤ := (2 * a + b) / (2 * b)

/-- scaleCoordinates of the source.  The pageInfo argument is none exactly
when the page-context fetch threw, in which case the inputs are returned
unscaled; a missing or zero viewport dimension falls back to 1440 x 900
through JavaScript || truthiness. -/
def scaleCoordinates (x y : ℤ) (pageInfo : Option JSResponse) : ℤ × ℤ :=
  match pageInfo with
  | none => (x, y)
  | some info =>
    let viewportWidth := jsOrInt (info.viewport.map (·.width)) 1440
    let viewportHeight := jsOrInt (info.viewport.map (·.height)) 900
    (mathRoundDiv (x * viewportWidth) 1000, mathRoundDiv (y * viewportHeight) 1000)

/-! ### Transport retry layer (executeTool) -/

/-- Bounded retry count of the source. -/
def MAX_RETRIES : ℕ := 3

/-- response?.error || chrome.runtime.lastError?.message || '' of the source. -/
def errMsgOf (resp : Option JSResponse) (lastErr : Option String) : String :=
  (jsOrStr (resp.bind (·.error)) lastErr).getD ""

/-- Classification of a transient channel-disconnection error. -/
def isConnectionError (msg : String) : Bool :=
  containsSub msg "Receiving end does not exist" ||
    containsSub msg "Could not establish connection"

/-- The recursive retry of executeTool: attempts gives the k-th attempt
as a pair of the (possibly undefined) response and the (possibly absent)
chrome.runtime.lastError message.  Returns the retryCount at which the
promise resolves together with the resolved response. -/
def executeToolFrom (attempts : ℕ → Option JSResponse × Option String)
    (retryCount : ℕ) : ℕ × Option JSResponse :=
  let a := attempts retryCount
  if h : isConnectionError (errMsgOf a.1 a.2) = true ∧ retryCount < MAX_RETRIES then
    executeToolFrom attempts (retryCount + 1)
  else
    (retryCount, a.1)
termination_by MAX_RETRIES - retryCount
decreasing_by
  simp only [MAX_RETRIES] at *
  omega

/-! ### Conversation model and model endpoint interface -/

/-- One Part of a Gemini conversation turn (the wire format is a tagged
union: exactly one of text, inline image data, function call or function
response is present). -/
inductive GPart where
  | text (s : String)
  | inlineData (d : String)
  | functionCall (name : String) (args : GArgs)
  | functionResponse (name : String) (resp : JSResponse)
deriving DecidableEq

/-- One conversation turn: a role together with its ordered parts. -/
structure GContent where
  role : String
  parts : List GPart
deriving DecidableEq

/-- Parsed outcome of one model request, as consumed by the agent loop:
an http or network failure (which the source throws on), a prompt-level
safety block, a missing candidate (thrown), a candidate-level confirmation
demand, or an ordinary candidate with its content parts. -/
inductive GResp where
  | httpError (msg : String)
  | blocked (reason : String)
  | noCandidate
  | confirmRequired (message : Option String)
  | candidate (parts : List GPart)
deriving DecidableEq

/-- Environment of one streamWithGeminiComputerUse run: the scripted model
endpoint (indexed by request number), the answers to successive
window.confirm dialogs, the resolved response of each successive
executeTool or raw sendMessage transport call, and the platform flag.
Transport retries happen below this interface: an executeTool call always
resolves to one response (see executeToolFrom). -/
structure LoopEnv where
  script : ℕ → GResp
  confirm : ℕ → Bool
  tool : ℕ → JSResponse
  isMac : Bool

/-- The requiresUserConfirmation call inside executeBrowserAction: performs
one page-context transport call and, when the decision fires, one confirm
dialog.  Returns updated transport and confirm counters and whether the
action is to be cancelled (dialog shown and user answered no). -/
def requiresUserConfirmationAt (env : LoopEnv) (functionName : String) (args : GArgs)
    (tc cc : ℕ) : ℕ × ℕ × Bool :=
  let pageContext := env.tool tc
  if requiresConfirmationDecision functionName args (some pageContext) then
    (tc + 1, cc + 1, ! env.confirm cc)
  else
    (tc + 1, cc, false)

/-- The result object returned when the human-in-the-loop check cancels an
action. -/
def cancelledResult : JSResponse :=
  { success := some false, error := some "Action cancelled by user", userCancelled := some true }

/-- Sub-steps of the compound type_text_at action, recorded in execution
order. -/
inductive SubStep where
  | scaleFetch
  | clickAt (x y : ℤ)
  | focusDelay
  | selectAllCombo (keys : List String)
  | shortDelay
  | deleteKey
  | keyboardType (value : Option String)
  | enterDelay
  | enterKey
deriving DecidableEq

/-- The type_text_at branch of executeBrowserAction: optional click at
scaled coordinates, optional select-all-and-delete, the raw keyboard_type
send, and an optional Enter key.  The source discards the result of every
sub-step except the keyboard_type send, whose response it returns.  The
returned tuple carries the updated transport counter, the unchanged confirm
counter, the executed sub-step trace, and the returned result. -/
def typeTextAt (env : LoopEnv) (args : GArgs) (tc cc : ℕ) :
    ℕ × ℕ × List SubStep × JSResponse :=
  let s1 : ℕ × List SubStep :=
    match args.x, args.y with
    | some xv, some yv =>
      let info := env.tool tc
      let coords := scaleCoordinates xv yv (some info)
      (tc + 2, [SubStep.scaleFetch, SubStep.clickAt coords.1 coords.2, SubStep.focusDelay])
    | _, _ => (tc, [])
  let tc1 := s1.1
  let s2 : ℕ × List SubStep :=
    if args.clear_before_typing ≠ some false then
      let ks := if env.isMac then ["Meta", "a"] else ["Control", "a"]
      (tc1 + 2, [SubStep.selectAllCombo ks, SubStep.shortDelay, SubStep.deleteKey, SubStep.shortDelay])
    else (tc1, [])
  let tc2 := s2.1
  let typeResult := env.tool tc2
  let valueSent := jsOrStr args.text args.content
  let tc3 := tc2 + 1
  let s3 : ℕ × List SubStep :=
    if args.press_enter = some true then (tc3 + 1, [SubStep.enterDelay, SubStep.enterKey])
    else (tc3, [])
  (s3.1, cc, s1.2 ++ s2.2 ++ [SubStep.keyboardType valueSent] ++ s3.2, typeResult)

/-- Transport index at which typeTextAt performs its keyboard_type send. -/
def keyboardTypeIndex (args : GArgs) (tc : ℕ) : ℕ :=
  let t1 := match args.x, args.y with
    | some _, some _ => tc + 2
    | _, _ => tc
  if args.clear_before_typing ≠ some false then t1 + 2 else t1

/-- executeBrowserAction of the source: one human-in-the-loop check, then
dispatch on the function name.  Transport calls are consumed from env.tool
in program order; the returned triple is the updated transport counter, the
updated confirm counter and the action result. -/
def executeBrowserAction (env : LoopEnv) (functionName : String) (args : GArgs)
    (tc cc : ℕ) : ℕ × ℕ × JSResponse :=
  let chk := requiresUserConfirmationAt env functionName args tc cc
  let tc := chk.1
  let cc := chk.2.1
  if chk.2.2 then
    (tc, cc, cancelledResult)
  else
    match functionName with
    | "click" | "click_at" | "mouse_click" =>
      let xv := jsOrInt args.x (jsOrInt (args.coordinate.map (·.1)) 0)
      let yv := jsOrInt args.y (jsOrInt (args.coordinate.map (·.2)) 0)
      let info := env.tool tc
      let _coords := scaleCoordinates xv yv (some info)
      (tc + 2, cc, env.tool (tc + 1))
    | "type" | "type_text" | "keyboard_input" | "input_text" =>
      (tc + 1, cc, env.tool tc)
    | "scroll" | "scroll_down" | "scroll_up" | "mouse_scroll" =>
      (tc + 1, cc, env.tool tc)
    | "navigate" | "open_web_browser" | "navigate_to" | "go_to" =>
      (tc + 1, cc, env.tool tc)
    | "get_screenshot" | "take_screenshot" | "screenshot" =>
      (tc + 1, cc, env.tool tc)
    | "get_page_info" | "get_url" | "get_page_content" =>
      (tc + 1, cc, env.tool tc)
    | "wait" | "sleep" | "delay" =>
      let waitTime := jsOrInt args.seconds (jsOrInt (args.milliseconds.map (· / 1000)) 1) * 1000
      (tc, cc, { success := some true, message := some ("Waited " ++ toString waitTime ++ "ms") })
    | "press_key" | "key_press" =>
      (tc + 1, cc, env.tool tc)
    | "type_text_at" =>
      let r := typeTextAt env args tc cc
      (r.1, r.2.1, r.2.2.2)
    | "key_combination" =>
      (tc + 1, cc, env.tool tc)
    | "hover_at" =>
      let info := env.tool tc
      let _coords := scaleCoordinates (jsOrInt args.x 0) (jsOrInt args.y 0) (some info)
      (tc + 2, cc, env.tool (tc + 1))
    | "scroll_document" =>
      (tc + 1, cc, env.tool tc)
    | "scroll_at" =>
      (tc + 1, cc, env.tool tc)
    | "wait_5_seconds" =>
      (tc, cc, { success := some true, message := some "Waited 5 seconds" })
    | "go_back" | "back" =>
      (tc, cc, { success := some true, message := some "Navigated back" })
    | "go_forward" | "forward" =>
      (tc, cc, { success := some true, message := some "Navigated forward" })
    | "search" =>
      (tc + 1, cc, env.tool tc)
    | "drag_and_drop" =>
      (tc + 1, cc, env.tool tc)
    | _ =>
      (tc, cc, { success := some false, error := some ("Unknown function: " ++ functionName),
                 args := some args })

/-! ### Agent loop controller (streamWithGeminiComputerUse) -/

/-- Terminal outcomes of one agent-loop run. -/
inductive TermReason where
  | fatalError (msg : String)
  | blockedBySafetyFilter (reason : String)
  | cancelledByUser
  | completed
  | maxTurnsReached
deriving DecidableEq

/-- Result of one agent-loop run: the terminal outcome, the number of model
requests issued, the conversation value at each request (in order), the
final conversation, the accumulated response text and the final assistant
message. -/
structure LoopResult where
  outcome : TermReason
  requests : ℕ
  snapshots : List (List GContent)
  contents : List GContent
  responseText : String
  finalMessage : String

/-- Whether a part is a function call. -/
def isFnCall : GPart → Bool
  | GPart.functionCall _ _ => true
  | _ => false

/-- Accumulate the text parts of a turn onto the response text,
skipping empty (falsy) texts, as the completion path of the source does. -/
def textsOf (parts : List GPart) (rt : String) : String :=
  parts.foldl (fun acc p =>
    match p with
    | GPart.text s => if s = "" then acc else acc ++ s
    | _ => acc) rt

/-- screenshot.screenshot.split(',')[1] of the source. -/
def splitShotData (s : String) : String := ((s.splitOn ",").drop 1).headD ""

/-- Truthy screenshot payload of a transport response, if any. -/
def shotField (r : JSResponse) : Option String :=
  match r.screenshot with
  | some s => if s = "" then none else some s
  | none => none

/-- The viewport info string attached to each function response. -/
def viewportInfoOf (info : JSResponse) : String :=
  match info.viewport with
  | some v => " Viewport: " ++ toString v.width ++ "x" ++ toString v.height
  | none => ""

/-- The function response payload: the action result extended with the
current url, the viewport info and success defaulting to true unless the
result explicitly reported false. -/
def buildFunctionResponse (result : JSResponse) (currentUrl viewportInfo : String) : JSResponse :=
  { result with
    url := some currentUrl
    viewport_info := some viewportInfo
    success := some (! (result.success == some false)) }

/-- Output of one dispatching phase. -/
structure DispatchOut where
  tc : ℕ
  cc : ℕ
  responseText : String
  rendered : String
  resps : List GPart
  shot : Option String

/-- The per-part dispatch loop of one model turn: text parts accumulate
onto the response text; each function call runs the safety check and the
action, then a screenshot and a page-context fetch, and produces one
function response part carrying the same function name.  The rendered
string tracks the last assistant-message update. -/
def dispatchParts (env : LoopEnv) :
    List GPart → ℕ → ℕ → String → String → Option String → DispatchOut
  | [], tc, cc, rt, rend, shot => ⟨tc, cc, rt, rend, [], shot⟩
  | GPart.text s :: rest, tc, cc, rt, rend, shot =>
    let rt1 := if s = "" then rt else rt ++ s ++ "\n"
    dispatchParts env rest tc cc rt1 rend shot
  | GPart.functionCall n a :: rest, tc, cc, rt, _rend, _shot =>
    let rt1 := rt ++ "\n[Executing: " ++ n ++ "]\n"
    let r := executeBrowserAction env n a tc cc
    let shotResp := env.tool r.1
    let shot1 := shotField shotResp
    let info := env.tool (r.1 + 1)
    let currentUrl := info.url.getD ""
    let fr := buildFunctionResponse r.2.2 currentUrl (viewportInfoOf info)
    let d := dispatchParts env rest (r.1 + 2) r.2.1 rt1 rt1 shot1
    ⟨d.tc, d.cc, d.responseText, d.rendered, GPart.functionResponse n fr :: d.resps, d.shot⟩
  | _ :: rest, tc, cc, rt, rend, shot => dispatchParts env rest tc cc rt rend shot

/-- The prefix of the safety-block message shown to the user. -/
def safetyBlockMessage (reason : String) : String :=
  "⚠️ **Safety Filter Blocked Request**\n\nReason: " ++ reason

/-- The agent loop of streamWithGeminiComputerUse, by remaining turn
budget.  Arguments after the fuel: requests issued so far, transport
counter, confirm counter, conversation, accumulated response text, last
rendered assistant text, current screenshot payload. -/
def runLoop (env : LoopEnv) :
    ℕ → ℕ → ℕ → ℕ → List GContent → String → String → Option String → LoopResult
  | 0, rq, _tc, _cc, contents, rt, _rend, _shot =>
    { outcome := TermReason.maxTurnsReached, requests := rq, snapshots := [],
      contents := contents, responseText := rt, finalMessage := jsStr rt "Task completed" }
  | fuel + 1, rq, tc, cc, contents, rt, rend, shot =>
    match env.script rq with
    | GResp.httpError msg =>
      { outcome := TermReason.fatalError msg, requests := rq + 1, snapshots := [contents],
        contents := contents, responseText := rt, finalMessage := "Error: " ++ msg }
    | GResp.blocked reason =>
      { outcome := TermReason.blockedBySafetyFilter reason, requests := rq + 1,
        snapshots := [contents], contents := contents, responseText := rt,
        finalMessage := safetyBlockMessage reason }
    | GResp.noCandidate =>
      { outcome := TermReason.fatalError "No candidate in Gemini response", requests := rq + 1,
        snapshots := [contents], contents := contents, responseText := rt,
        finalMessage := "Error: No candidate in Gemini response" }
    | GResp.confirmRequired _message =>
      if env.confirm cc then
        let contents1 := contents ++
          [⟨"user", [GPart.text "CONFIRMED: User approved this action. Please proceed."]⟩]
        let r := runLoop env fuel (rq + 1) tc (cc + 1) contents1 rt rend shot
        { r with snapshots := contents :: r.snapshots }
      else
        { outcome := TermReason.cancelledByUser, requests := rq + 1, snapshots := [contents],
          contents := contents, responseText := rt,
          finalMessage := rend ++ "\n\n❌ Action cancelled by user." }
    | GResp.candidate parts =>
      let contents1 := contents ++ [⟨"model", parts⟩]
      if parts.any isFnCall then
        let d := dispatchParts env parts tc cc rt rend shot
        let userParts := d.resps ++
          (match d.shot with
           | some s => [GPart.inlineData (splitShotData s)]
           | none => [])
        let contents2 := if d.resps.isEmpty then contents1 else contents1 ++ [⟨"user", userParts⟩]
        let r := runLoop env fuel (rq + 1) d.tc d.cc contents2 d.responseText d.rendered d.shot
        { r with snapshots := contents :: r.snapshots }
      else
        let rt1 := textsOf parts rt
        { outcome := TermReason.completed, requests := rq + 1, snapshots := [contents],
          contents := contents1, responseText := rt1,
          finalMessage := jsStr rt1 "Task completed" }

/-- A prior chat message, as seeded into the conversation. -/
structure ChatMsg where
  isUser : Bool
  content : String

/-- Seeding of the conversation from prior chat messages. -/
def seedContents (msgs : List ChatMsg) : List GContent :=
  msgs.map (fun m => ⟨if m.isUser then "user" else "model", [GPart.text m.content]⟩)

/-- Appending the initial screenshot to the last turn when it is a user
turn, as the source does by mutating the last element. -/
def attachShot : List GContent → String → List GContent
  | [], _ => []
  | [last], d =>
    if last.role = "user" then [⟨last.role, last.parts ++ [GPart.inlineData d]⟩] else [last]
  | c :: rest, d => c :: attachShot rest d

/-- The turn bound of the source. -/
def maxTurns : ℕ := 30

/-- streamWithGeminiComputerUse of the source: takes the initial
screenshot (transport call 0; throwing when it is missing or empty), seeds
the conversation, attaches the screenshot to the last user turn and runs
the agent loop with the full turn budget. -/
def streamWithGeminiComputerUse (env : LoopEnv) (msgs : List ChatMsg) : LoopResult :=
  let shotResp := env.tool 0
  match shotField shotResp with
  | none =>
    let errorMsg := (jsOrStr shotResp.error (some "Unknown error capturing screenshot")).getD ""
    { outcome := TermReason.fatalError ("Failed to capture screenshot: " ++ errorMsg),
      requests := 0, snapshots := [], contents := [], responseText := "",
      finalMessage := "Error: Failed to capture screenshot: " ++ errorMsg }
  | some s =>
    let contents := attachShot (seedContents msgs) (splitShotData s)
    runLoop env maxTurns 0 1 0 contents "" "" (some s)

/-! ### Conversation invariants -/

/-- Whether a part is a function response carrying the given name. -/
def isRespTo (n : String) : GPart → Bool
  | GPart.functionResponse m _ => m == n
  | _ => false

/-- Every function call in the part sequence is followed, later in the
sequence, by a function response with the same name. -/
def callsAnswered : List GPart → Bool
  | [] => true
  | GPart.functionCall n _ :: rest => rest.any (isRespTo n) && callsAnswered rest
  | _ :: rest => callsAnswered rest

/-- Every function call of ps has a matching function response in qs. -/
def allCallsHaveResp : List GPart → List GPart → Bool
  | [], _ => true
  | GPart.functionCall n _ :: rest, qs => qs.any (isRespTo n) && allCallsHaveResp rest qs
  | _ :: rest, qs => allCallsHaveResp rest qs

/-- The flattened part sequence of a conversation, in order. -/
def flatParts (cs : List GContent) : List GPart := (cs.map (·.parts)).flatten

/-- Snapshot trace of a run: the conversation at each model request,
followed by the final conversation. -/
def snapshotTrace (r : LoopResult) : List (List GContent) := r.snapshots ++ [r.contents]

/-- A model response consisting of exactly one function call and nothing
else. -/
def isSingleCallResp : GResp → Bool
  | GResp.candidate [GPart.functionCall _ _] => true
  | _ => false

/-! ### Content-script action executor (executePageAction) -/

/-- A DOMRect as relevant to the executor. -/
structure DomRect where
  left : ℤ
  top : ℤ
  width : ℤ
  height : ℤ
deriving DecidableEq

/-- A DOM element as observed by the executor: tag name, text content,
contenteditable attribute, inner html, attributes and bounding rectangle. -/
structure DomElement where
  tagName : String
  textContent : Option String := none
  contentEditable : Bool := false
  innerHTML : String := ""
  attrs : List (String × String) := []
  rect : DomRect := ⟨0, 0, 0, 0⟩
deriving DecidableEq

/-- DOM oracle: query results of the page at the moment the action runs.
querySelector and querySelectorAll may throw (for example on an invalid
selector), modelled by Except. -/
structure Dom where
  querySelector : String → Except String (Option DomElement)
  querySelectorAll : String → Except String (List DomElement)
  elementFromPoint : ℤ → ℤ → Option DomElement
  activeElement : Option DomElement

/-- One item of the extract action result. -/
structure ExtractItem where
  text : Option String
  html : String
  attrs : List (String × String)
deriving DecidableEq

/-- Result object of executePageAction. -/
structure PageResult where
  success : Bool
  message : Option String := none
  element : Option String := none
  text : Option String := none
  elementBounds : Option DomRect := none
  data : Option (List ExtractItem) := none
  count : Option ℕ := none
deriving DecidableEq

/-- executePageAction returns either a plain result or a promise of one
(the fill action resolves asynchronously). -/
inductive PageOutcome where
  | direct (r : PageResult)
  | promise (r : PageResult)
deriving DecidableEq

/-- Formatting of a coordinate pair in executor messages. -/
def fmtPoint (x y : ℤ) : String := "(" ++ toString x ++ ", " ++ toString y ++ ")"

/-- Typeability check of the executor: INPUT, TEXTAREA or contenteditable. -/
def isTypeableEl (e : DomElement) : Bool :=
  e.tagName == "INPUT" || e.tagName == "TEXTAREA" || e.contentEditable

/-- The coordinate branch of the click action. -/
def clickByCoordinates (coordinates : Option (ℤ × ℤ)) (dom : Dom) : PageResult :=
  match coordinates with
  | some (cx, cy) =>
    match dom.elementFromPoint cx cy with
    | some element =>
      { success := true
        message := some ("Clicked at " ++ fmtPoint cx cy)
        element := some element.tagName
        text := element.textContent.map (fun t => t.take 50)
        elementBounds := some element.rect }
    | none =>
      { success := false
        message := some ("No element found at coordinates " ++ fmtPoint cx cy) }
  | none =>
    { success := false, message := some "Target selector or coordinates required for click action" }

/-- The action names recognized by the executor switch. -/
def knownPageActions : List String :=
  ["click", "fill", "scroll", "keyboard_type", "press_key", "clear_input",
   "key_combination", "hover", "drag_drop", "mouse_move", "extract", "screenshot"]

/-- The switch body of executePageAction, before the surrounding
try/catch: a thrown DOM exception surfaces as Except.error. -/
def executePageActionBody (action : String) (target value selector : Option String)
    (coordinates : Option (ℤ × ℤ)) (direction : Option String) (amount : Option ℤ)
    (key : Option String) (keys : Option (List String)) (destination : Option (ℤ × ℤ))
    (dom : Dom) : Except String PageOutcome :=
  match action with
  | "click" =>
    match jsOrStr selector target with
    | some sel =>
      if sel ≠ "" then do
        let el ← dom.querySelector sel
        match el with
        | some element =>
          pure (PageOutcome.direct
            { success := true
              message := some ("Clicked element: " ++ sel)
              element := some element.tagName })
        | none =>
          pure (PageOutcome.direct { success := false, message := some ("Element not found: " ++ sel) })
      else pure (PageOutcome.direct (clickByCoordinates coordinates dom))
    | none => pure (PageOutcome.direct (clickByCoordinates coordinates dom))
  | "fill" =>
    match value with
    | some v =>
      if v ≠ "" then do
        let bysel ← (match target with
          | some tg =>
            if tg ≠ "" ∧ ¬ (containsSub tg ":focus" = true) then dom.querySelector tg
            else pure none
          | none => pure none)
        let element := match bysel with
          | some e => some e
          | none => dom.activeElement
        match element with
        | some e =>
          if isTypeableEl e then
            pure (PageOutcome.promise
              { success := true
                message := some ("Typed \"" ++ v ++ "\" into " ++ e.tagName)
                element := some e.tagName })
          else
            pure (PageOutcome.direct
              { success := false, message := some ("Element " ++ e.tagName ++ " is not typeable") })
        | none =>
          pure (PageOutcome.direct
            { success := false
              message := some "No focused element found. Try clicking on the input field first." })
      else pure (PageOutcome.direct { success := false, message := some "Value required for fill action" })
    | none => pure (PageOutcome.direct { success := false, message := some "Value required for fill action" })
  | "scroll" =>
    if direction = some "top" ∨ target = some "top" then
      pure (PageOutcome.direct { success := true, message := some "Scrolled to top" })
    else if direction = some "bottom" ∨ target = some "bottom" then
      pure (PageOutcome.direct { success := true, message := some "Scrolled to bottom" })
    else if direction = some "up" then
      pure (PageOutcome.direct
        { success := true
          message := some ("Scrolled up by " ++ toString (jsOrInt amount 300) ++ "px") })
    else if direction = some "down" then
      pure (PageOutcome.direct
        { success := true
          message := some ("Scrolled down by " ++ toString (jsOrInt amount 300) ++ "px") })
    else
      match jsOrStr selector target with
      | some sel =>
        if sel ≠ "" then do
          let el ← dom.querySelector sel
          match el with
          | some _ =>
            pure (PageOutcome.direct { success := true, message := some ("Scrolled to: " ++ sel) })
          | none =>
            pure (PageOutcome.direct { success := false, message := some ("Element not found: " ++ sel) })
        else pure (PageOutcome.direct { success := true, message := some "Scrolled" })
      | none => pure (PageOutcome.direct { success := true, message := some "Scrolled" })
  | "keyboard_type" =>
    match value with
    | some v =>
      if v ≠ "" then
        match dom.activeElement with
        | none =>
          pure (PageOutcome.direct
            { success := false, message := some "No element has focus. Click on an input field first." })
        | some e =>
          if isTypeableEl e then
            pure (PageOutcome.direct
              { success := true
                message := some ("Typed \"" ++ v ++ "\" into " ++ e.tagName)
                element := some e.tagName })
          else
            pure (PageOutcome.direct
              { success := false
                message := some ("Element " ++ e.tagName ++ " is not typeable. Click on an input field first.") })
      else
        pure (PageOutcome.direct
          { success := false, message := some "Value required for keyboard_type action" })
    | none =>
      pure (PageOutcome.direct
        { success := false, message := some "Value required for keyboard_type action" })
  | "press_key" =>
    let keyToPress := jsStr ((jsOrStr key (jsOrStr value target)).getD "") "Enter"
    match dom.activeElement with
    | some _ =>
      pure (PageOutcome.direct { success := true, message := some ("Pressed " ++ keyToPress ++ " key") })
    | none =>
      pure (PageOutcome.direct { success := false, message := some "No focused element to send key to" })
  | "clear_input" =>
    match dom.activeElement with
    | some e =>
      if isTypeableEl e then
        pure (PageOutcome.direct { success := true, message := some "Cleared input field" })
      else
        pure (PageOutcome.direct { success := false, message := some "No input field focused to clear" })
    | none =>
      pure (PageOutcome.direct { success := false, message := some "No input field focused to clear" })
  | "key_combination" =>
    let keysList := keys.getD ["Enter"]
    pure (PageOutcome.direct
      { success := true
        message := some ("Pressed key combination: " ++ String.intercalate "+" keysList) })
  | "hover" =>
    match coordinates with
    | some (cx, cy) =>
      match dom.elementFromPoint cx cy with
      | some e =>
        pure (PageOutcome.direct
          { success := true
            message := some ("Hovered at " ++ fmtPoint cx cy)
            element := some e.tagName })
      | none =>
        pure (PageOutcome.direct { success := false, message := some ("No element at " ++ fmtPoint cx cy) })
    | none =>
      pure (PageOutcome.direct { success := false, message := some "Coordinates required for hover" })
  | "drag_drop" =>
    match coordinates, destination with
    | some (cx, cy), some (dx, dy) =>
      match dom.elementFromPoint cx cy, dom.elementFromPoint dx dy with
      | some _, some _ =>
        pure (PageOutcome.direct
          { success := true
            message := some ("Dragged from " ++ fmtPoint cx cy ++ " to " ++ fmtPoint dx dy) })
      | _, _ =>
        pure (PageOutcome.direct
          { success := false, message := some "Could not find elements at drag or drop coordinates" })
    | _, _ =>
      pure (PageOutcome.direct
        { success := false, message := some "Both coordinates and destination required for drag_drop" })
  | "mouse_move" =>
    match coordinates with
    | some (cx, cy) =>
      match dom.elementFromPoint cx cy with
      | some _ =>
        pure (PageOutcome.direct { success := true, message := some ("Mouse moved to " ++ fmtPoint cx cy) })
      | none =>
        pure (PageOutcome.direct
          { success := false, message := some ("No element at coordinates " ++ fmtPoint cx cy) })
    | none =>
      pure (PageOutcome.direct
        { success := false, message := some "Coordinates required for mouse_move action" })
  | "extract" =>
    match target with
    | some tg =>
      if tg ≠ "" then do
        let els ← dom.querySelectorAll tg
        pure (PageOutcome.direct
          { success := true
            data := some (els.map (fun el => ⟨el.textContent.map (fun t => t.trim), el.innerHTML, el.attrs⟩))
            count := some els.length })
      else
        pure (PageOutcome.direct
          { success := false, message := some "Target selector required for extract action" })
    | none =>
      pure (PageOutcome.direct
        { success := false, message := some "Target selector required for extract action" })
  | "screenshot" =>
    pure (PageOutcome.direct
      { success := true, message := some "Screenshot request sent to background" })
  | _ =>
    pure (PageOutcome.direct
      { success := false, message := some ("Unknown action: " ++ action) })

/-- executePageAction of the content script: the switch body wrapped in the
try/catch of the source, turning any thrown exception into a structured
failure result. -/
def executePageAction (action : String) (target value selector : Option String)
    (coordinates : Option (ℤ × ℤ)) (direction : Option String) (amount : Option ℤ)
    (key : Option String) (keys : Option (List String)) (destination : Option (ℤ × ℤ))
    (dom : Dom) : PageOutcome :=
  match executePageActionBody action target value selector coordinates direction amount key keys
      destination dom with
  | Except.ok r => r
  | Except.error e => PageOutcome.direct { success := false, message := some ("Error: " ++ e) }

/-! ### Concrete environments used by counterexamples and witnesses -/

/-- Transport attempts that always report a connection error. -/
def c4attempts : ℕ → Option JSResponse × Option String :=
  fun _ => (some { error := some "Receiving end does not exist" }, none)

/-- Scripted run for the safety-denial counterexample: the first model turn
issues a key_combination call, every later turn returns terminal text, the
user denies every confirm dialog, and every transport call succeeds. -/
def c3cexEnv : LoopEnv :=
  { script := fun k =>
      if k = 0 then GResp.candidate [GPart.functionCall "key_combination" {}]
      else GResp.candidate [GPart.text "done"]
    confirm := fun _ => false
    tool := fun _ =>
      { screenshot := some "s,DATA", url := some "https://example.com", text := some "hello" }
    isMac := false }

/-- Environment for the confirmation-denial witness: the model endpoint
demands confirmation on the first request and the user denies it. -/
def c3wenv : LoopEnv :=
  { script := fun _ => GResp.confirmRequired none
    confirm := fun _ => false
    tool := fun _ =>
      { screenshot := some "s,DATA", url := some "https://example.com", text := some "hello" }
    isMac := false }

/-- Environment for the type_text_at counterexample: transport call 1 (the
click sub-step) fails, every other call succeeds. -/
def c8env : LoopEnv :=
  { script := fun _ => GResp.noCandidate
    confirm := fun _ => true
    tool := fun t =>
      if t = 1 then
        { success := some false, message := some "No element found at coordinates (144, 90)" }
      else { success := some true, viewport := some ⟨1440, 900⟩ }
    isMac := false }

/-- Arguments of the type_text_at counterexample. -/
def c8args : GArgs := { x := some 100, y := some 100, text := some "hi" }

/-- Scripted run for the turn-bound witness: every model turn returns
exactly one function call and no terminal text. -/
def c9env : LoopEnv :=
  { script := fun _ => GResp.candidate [GPart.functionCall "wait" {}]
    confirm := fun _ => true
    tool := fun _ => { screenshot := some "s,DATA", url := some "https://example.com" }
    isMac := false }

/-- An inert DOM oracle for the executor witness. -/
def trivialDom : Dom :=
  { querySelector := fun _ => Except.ok none
    querySelectorAll := fun _ => Except.ok []
    elementFromPoint := fun _ _ => none
    activeElement := none }

/-! ### Theorems -/

/-- C2: for every argument bag and every page context (including a failed
page-context fetch, modelled by none), an action named key_combination
makes the safety engine demand human confirmation. -/
theorem key_combination_always_requires_confirmation (args : GArgs)
    (pageContext : Option JSResponse) :
    requiresConfirmationDecision "key_combination" args pageContext = true := by
  simp only [requiresConfirmationDecision, Bool.or_eq_true]
  exact Or.inl (Or.inl (Or.inl (by decide)))

/-- C1 counterexample: the page text contains credit card (and cvv, and
social security) case-insensitively, yet the safety engine does not demand
confirmation for a click action, contradicting the claim that those
substrings always force requiresConfirmation regardless of the action. -/
theorem sensitive_keywords_ignored_for_click_counterexample :
    containsSub
        (toLowerAscii "The page shows your Credit Card and CVV and Social Security details")
        "credit card" = true ∧
    requiresConfirmationDecision "click" {}
        (some { url := some "https://example.com",
                text := some "The page shows your Credit Card and CVV and Social Security details" })
      = false := by
  constructor
  · decide
  · decide

/-- C1 amended: the safety engine demands confirmation, for every action
name and argument bag, whenever the lowercased URL contains one of
checkout, payment, login, signin, admin, delete, remove, or the lowercased
page text contains one of checkout, payment, purchase, confirm order,
delete, remove account. -/
theorem sensitive_page_keywords_force_confirmation (name : String) (args : GArgs)
    (pc : JSResponse)
    (h : (["checkout", "payment", "login", "signin", "admin", "delete", "remove"].any
            (fun kw => containsSub (pageUrlOf (some pc)) kw)) = true
       ∨ (["checkout", "payment", "purchase", "confirm order", "delete", "remove account"].any
            (fun kw => containsSub (pageTextOf (some pc)) kw)) = true) :
    requiresConfirmationDecision name args (some pc) = true := by
  have hs : isSensitivePage (pageUrlOf (some pc)) (pageTextOf (some pc)) = true := by
    rcases h with h | h
    · rw [List.any_eq_true] at h
      obtain ⟨kw, hmem, hkw⟩ := h
      fin_cases hmem <;> simp_all [isSensitivePage]
    · rw [List.any_eq_true] at h
      obtain ⟨kw, hmem, hkw⟩ := h
      fin_cases hmem <;> simp_all [isSensitivePage]
  simp [requiresConfirmationDecision, hs]

/-- C1 amended witness at a concrete checkout URL. -/
theorem sensitive_page_keywords_force_confirmation_witness :
    requiresConfirmationDecision "click" {}
        (some { url := some "https://shop.example/checkout", text := some "" }) = true :=
  sensitive_page_keywords_force_confirmation "click" {}
    { url := some "https://shop.example/checkout", text := some "" } (Or.inl (by decide))

/-- C6 counterexample: a page context successfully reporting a 0 x 0
viewport is scaled with the 1440 x 900 fallback instead of the claimed
round(x times w / 1000) formula, which would give (0, 0). -/
theorem scaleCoordinates_zero_viewport_counterexample :
    scaleCoordinates 1000 1000 (some { viewport := some ⟨0, 0⟩ }) = (1440, 900) ∧
    mathRoundDiv (1000 * 0) 1000 = 0 ∧
    ((1440 : ℤ), (900 : ℤ)) ≠ ((0 : ℤ), (0 : ℤ)) := by
  refine ⟨by decide, by decide, by decide⟩

/-- C6 amended: for model-grid coordinates and any reported viewport with
nonzero width and height, the scaler returns exactly the rounded products
round(x times w / 1000) and round(y times h / 1000). -/
theorem scaleCoordinates_rounding_formula (x y w h : ℤ) (resp : JSResponse)
    (hv : resp.viewport = some ⟨w, h⟩)
    (_hx0 : 0 ≤ x) (_hx1 : x ≤ 1000) (_hy0 : 0 ≤ y) (_hy1 : y ≤ 1000)
    (hw : w ≠ 0) (hh : h ≠ 0) :
    scaleCoordinates x y (some resp) = (mathRoundDiv (x * w) 1000, mathRoundDiv (y * h) 1000) := by
  simp [scaleCoordinates, hv, jsOrInt, hw, hh]

/-- C6 amended witness at the 1920 x 1080 viewport of the documentation. -/
theorem scaleCoordinates_rounding_formula_witness :
    scaleCoordinates 500 300 (some { viewport := some ⟨1920, 1080⟩ }) = (960, 324) := by
  rw [scaleCoordinates_rounding_formula 500 300 1920 1080
    { viewport := some ⟨1920, 1080⟩ } rfl (by decide) (by decide) (by decide) (by decide)
    (by decide) (by decide)]
  decide

/-- Rounding the exact quotient (x times 1000) / 1000 is the identity. -/
theorem mathRoundDiv_cancel (x : ℤ) : mathRoundDiv (x * 1000) 1000 = x := by
  unfold mathRoundDiv
  have h1 : 2 * (x * 1000) + 1000 = 1000 + x * 2000 := by ring
  have h2 : (2 : ℤ) * 1000 = 2000 := by norm_num
  rw [h1, h2, Int.add_mul_ediv_right 1000 x (by norm_num)]
  norm_num

/-- C7 counterexample: with a 500 x 500 viewport, scaling (1000, 1000)
gives (500, 500), but scaling that output again gives (250, 250), so the
scaler is not idempotent on its own output. -/
theorem scaleCoordinates_not_idempotent_counterexample :
    scaleCoordinates 1000 1000 (some { viewport := some ⟨500, 500⟩ }) = (500, 500) ∧
    scaleCoordinates 500 500 (some { viewport := some ⟨500, 500⟩ }) = (250, 250) ∧
    scaleCoordinates (scaleCoordinates 1000 1000 (some { viewport := some ⟨500, 500⟩ })).1
        (scaleCoordinates 1000 1000 (some { viewport := some ⟨500, 500⟩ })).2
        (some { viewport := some ⟨500, 500⟩ })
      ≠ scaleCoordinates 1000 1000 (some { viewport := some ⟨500, 500⟩ }) := by
  refine ⟨by decide, by decide, by decide⟩

/-- C7 amended: scaling is deterministic (two page contexts reporting the
same viewport yield the same result for the same point), and re-applying
the scaler leaves the output fixed for the degenerate 1000 x 1000 viewport;
general idempotence fails (see the counterexample). -/
theorem scaleCoordinates_deterministic (x y : ℤ) (r1 r2 : JSResponse)
    (hv : r1.viewport = r2.viewport) :
    scaleCoordinates x y (some r1) = scaleCoordinates x y (some r2) ∧
    (r1.viewport = some ⟨1000, 1000⟩ →
      scaleCoordinates (scaleCoordinates x y (some r1)).1 (scaleCoordinates x y (some r1)).2
          (some r1)
        = scaleCoordinates x y (some r1)) := by
  constructor
  · simp [scaleCoordinates, hv]
  · intro h1000
    have e : scaleCoordinates x y (some r1) = (x, y) := by
      simp [scaleCoordinates, h1000, jsOrInt, mathRoundDiv_cancel]
    rw [e]
    simpa using e

/-- C7 witness: determinism across distinct contexts with equal viewports,
and stability of re-application at the 1000 x 1000 viewport. -/
theorem scaleCoordinates_deterministic_witness :
    scaleCoordinates 700 700 (some { viewport := some ⟨1000, 1000⟩ })
        = scaleCoordinates 700 700
            (some { url := some "https://a.example", viewport := some ⟨1000, 1000⟩ }) ∧
    scaleCoordinates (scaleCoordinates 700 700 (some { viewport := some ⟨1000, 1000⟩ })).1
        (scaleCoordinates 700 700 (some { viewport := some ⟨1000, 1000⟩ })).2
        (some { viewport := some ⟨1000, 1000⟩ })
      = scaleCoordinates 700 700 (some { viewport := some ⟨1000, 1000⟩ }) := by
  have h := scaleCoordinates_deterministic 700 700 { viewport := some ⟨1000, 1000⟩ }
    { url := some "https://a.example", viewport := some ⟨1000, 1000⟩ } rfl
  exact ⟨h.1, h.2 rfl⟩

/-- One retry step of executeToolFrom under a connection error with budget
remaining. -/
theorem executeToolFrom_step {attempts : ℕ → Option JSResponse × Option String} {r : ℕ}
    (hc : isConnectionError (errMsgOf (attempts r).1 (attempts r).2) = true)
    (hr : r < MAX_RETRIES) :
    executeToolFrom attempts r = executeToolFrom attempts (r + 1) := by
  rw [executeToolFrom]
  simp [hc, hr]

/-- executeToolFrom resolves once the retry budget is exhausted. -/
theorem executeToolFrom_stop {attempts : ℕ → Option JSResponse × Option String} {r : ℕ}
    (hr : ¬ r < MAX_RETRIES) :
    executeToolFrom attempts r = (r, (attempts r).1) := by
  rw [executeToolFrom]
  simp [hr]

/-- C4: when every attempt reports a connection-classified error, the
transport layer resolves after attempt number MAX_RETRIES (that is, after
exactly 1 + MAX_RETRIES = 4 attempts, indices 0 through 3) with the last
response unmodified; it neither throws nor retries further. -/
theorem executeTool_connection_error_retry_count
    (attempts : ℕ → Option JSResponse × Option String)
    (h : ∀ k, k ≤ MAX_RETRIES →
      isConnectionError (errMsgOf (attempts k).1 (attempts k).2) = true) :
    executeToolFrom attempts 0 = (MAX_RETRIES, (attempts MAX_RETRIES).1) ∧
    MAX_RETRIES + 1 = 4 := by
  refine ⟨?_, by decide⟩
  rw [executeToolFrom_step (h 0 (by decide)) (by decide),
      executeToolFrom_step (h 1 (by decide)) (by decide),
      executeToolFrom_step (h 2 (by decide)) (by decide),
      executeToolFrom_stop (by decide)]
  rfl

/-- C4 witness on attempts that always answer with the connection error. -/
theorem executeTool_connection_error_retry_count_witness :
    executeToolFrom c4attempts 0 = (MAX_RETRIES, (c4attempts MAX_RETRIES).1) ∧
    MAX_RETRIES + 1 = 4 :=
  executeTool_connection_error_retry_count c4attempts (by decide)

/-- C8 counterexample: the click sub-step of type_text_at (transport call
1) fails, yet the compound action still performs the select-all, delete and
keyboard_type sub-steps and returns the keyboard_type result, not the
failing click result: no short-circuit happens. -/
theorem typeTextAt_no_short_circuit_counterexample :
    (c8env.tool 1).success = some false ∧
    typeTextAt c8env c8args 0 0 =
      (5, 0,
       [SubStep.scaleFetch, SubStep.clickAt 144 90, SubStep.focusDelay,
        SubStep.selectAllCombo ["Control", "a"], SubStep.shortDelay, SubStep.deleteKey,
        SubStep.shortDelay, SubStep.keyboardType (some "hi")],
       { success := some true, viewport := some ⟨1440, 900⟩ }) ∧
    (typeTextAt c8env c8args 0 0).2.2.2 ≠ c8env.tool 1 := by
  refine ⟨by decide, by decide, by decide⟩

/-- C8 amended: the compound type_text_at action executes its sub-steps
unconditionally; no sub-step result short-circuits it, and the returned
result is always the response of the keyboard_type transport send,
whatever the other sub-steps returned. -/
theorem typeTextAt_runs_all_substeps (env : LoopEnv) (args : GArgs) (tc cc : ℕ) :
    (typeTextAt env args tc cc).2.2.2 = env.tool (keyboardTypeIndex args tc) ∧
    SubStep.keyboardType (jsOrStr args.text args.content) ∈ (typeTextAt env args tc cc).2.2.1 := by
  unfold typeTextAt keyboardTypeIndex
  rcases hx : args.x with _ | xv <;> rcases hy : args.y with _ | yv <;>
    by_cases hcl : args.clear_before_typing ≠ some false <;>
    by_cases hpe : args.press_enter = some true <;>
    simp [hx, hy, hcl, hpe]

/-- C3 counterexample: in a run where the safety engine demands
confirmation for a key_combination call and the user denies every dialog,
the loop does not terminate with cancelledByUser: it answers the call with
the cancelled result, issues a second model request and completes. -/
theorem safety_denial_does_not_stop_loop_counterexample :
    requiresConfirmationDecision "key_combination" {} (some (c3cexEnv.tool 1)) = true ∧
    c3cexEnv.confirm 0 = false ∧
    (streamWithGeminiComputerUse c3cexEnv [⟨true, "go"⟩]).outcome = TermReason.completed ∧
    (streamWithGeminiComputerUse c3cexEnv [⟨true, "go"⟩]).outcome ≠ TermReason.cancelledByUser ∧
    (streamWithGeminiComputerUse c3cexEnv [⟨true, "go"⟩]).requests = 2 := by
  refine ⟨by decide, rfl, by decide, by decide, by decide⟩

/-- C3 amended: an endpoint-level confirmation demand denied by the user
terminates the loop with cancelledByUser and appends the cancellation
notice to the rendered assistant message; a denial of the local safety
engine check instead makes executeBrowserAction return the cancelled
failure result (success false, error Action cancelled by user,
userCancelled true), which the loop treats as an ordinary action result
and continues. -/
theorem confirmation_denial_behavior (env : LoopEnv) (fuel rq tc cc : ℕ)
    (contents : List GContent) (rt rend : String) (shot : Option String)
    (message : Option String) (name : String) (args : GArgs) (tc2 cc2 : ℕ) :
    (env.script rq = GResp.confirmRequired message → env.confirm cc = false →
      (runLoop env (fuel + 1) rq tc cc contents rt rend shot).outcome
          = TermReason.cancelledByUser ∧
      (runLoop env (fuel + 1) rq tc cc contents rt rend shot).finalMessage
          = rend ++ "\n\n❌ Action cancelled by user.") ∧
    (requiresConfirmationDecision name args (some (env.tool tc2)) = true →
      env.confirm cc2 = false →
      executeBrowserAction env name args tc2 cc2 = (tc2 + 1, cc2 + 1, cancelledResult)) := by
  constructor
  · intro hs hc
    simp only [runLoop, hs, hc]
    exact ⟨rfl, rfl⟩
  · intro hd hc
    unfold executeBrowserAction requiresUserConfirmationAt
    simp [hd, hc]

/-- C3 amended witness: concrete endpoint-level denial and concrete
safety-engine denial. -/
theorem confirmation_denial_behavior_witness :
    (runLoop c3wenv 1 0 0 0 [] "" "" none).outcome = TermReason.cancelledByUser ∧
    (runLoop c3wenv 1 0 0 0 [] "" "" none).finalMessage
        = "" ++ "\n\n❌ Action cancelled by user." ∧
    executeBrowserAction c3wenv "key_combination" {} 5 7 = (6, 8, cancelledResult) := by
  have h := confirmation_denial_behavior c3wenv 0 0 0 0 [] "" "" none none
    "key_combination" {} 5 7
  exact ⟨(h.1 rfl rfl).1, (h.1 rfl rfl).2, h.2 (by decide) rfl⟩

/-- Prefix reflexivity for conversation lists. -/
theorem prefixSelf {α : Type} (l : List α) : l <+: l := ⟨[], List.append_nil l⟩

/-- A list is a prefix of itself extended on the right. -/
theorem prefixExtend {α : Type} (l t : List α) : l <+: l ++ t := ⟨t, rfl⟩

/-- Weakening the head of a prefix chain. -/
theorem chainWeaken {a b : List GContent} {l : List (List GContent)}
    (hab : a <+: b) (h : List.Chain' (· <+: ·) (b :: l)) :
    List.Chain' (· <+: ·) (a :: l) := by
  cases l with
  | nil => exact List.chain'_singleton a
  | cons c l =>
    rw [List.chain'_cons] at h ⊢
    exact ⟨hab.trans h.1, h.2⟩

/-- Answered part sequences are closed under concatenation. -/
theorem callsAnswered_append {ps qs : List GPart} (hp : callsAnswered ps = true)
    (hq : callsAnswered qs = true) : callsAnswered (ps ++ qs) = true := by
  induction ps with
  | nil => simpa using hq
  | cons p rest ih =>
    cases p with
    | text s =>
      simp only [callsAnswered, List.cons_append, List.append_eq] at hp ⊢
      exact ih hp
    | inlineData d =>
      simp only [callsAnswered, List.cons_append, List.append_eq] at hp ⊢
      exact ih hp
    | functionResponse m r =>
      simp only [callsAnswered, List.cons_append, List.append_eq] at hp ⊢
      exact ih hp
    | functionCall n a =>
      simp only [callsAnswered, List.cons_append, List.append_eq, Bool.and_eq_true,
        List.any_append, Bool.or_eq_true] at hp ⊢
      exact ⟨Or.inl hp.1, ih hp.2⟩

/-- If every call of ps is answered inside qs and qs itself is answered,
then ps followed by qs is answered. -/
theorem callsAnswered_of_allCalls {ps qs : List GPart}
    (h1 : allCallsHaveResp ps qs = true) (h2 : callsAnswered qs = true) :
    callsAnswered (ps ++ qs) = true := by
  induction ps with
  | nil => simpa using h2
  | cons p rest ih =>
    cases p with
    | text s =>
      simp only [allCallsHaveResp] at h1
      simp only [callsAnswered, List.cons_append, List.append_eq]
      exact ih h1
    | inlineData d =>
      simp only [allCallsHaveResp] at h1
      simp only [callsAnswered, List.cons_append, List.append_eq]
      exact ih h1
    | functionResponse m r =>
      simp only [allCallsHaveResp] at h1
      simp only [callsAnswered, List.cons_append, List.append_eq]
      exact ih h1
    | functionCall n a =>
      simp only [allCallsHaveResp, Bool.and_eq_true] at h1
      simp only [callsAnswered, List.cons_append, List.append_eq, Bool.and_eq_true,
        List.any_append, Bool.or_eq_true]
      exact ⟨Or.inr h1.1, ih h1.2⟩

/-- A part sequence without function calls is answered. -/
theorem callsAnswered_of_no_calls {ps : List GPart}
    (h : ∀ p ∈ ps, isFnCall p = false) : callsAnswered ps = true := by
  induction ps with
  | nil => rfl
  | cons p rest ih =>
    have hrest : ∀ q ∈ rest, isFnCall q = false := fun q hq => h q (List.mem_cons_of_mem p hq)
    cases p with
    | text s => simp only [callsAnswered]; exact ih hrest
    | inlineData d => simp only [callsAnswered]; exact ih hrest
    | functionResponse m r => simp only [callsAnswered]; exact ih hrest
    | functionCall n a =>
      have := h _ (List.mem_cons_self _ _)
      simp [isFnCall] at this

/-- allCallsHaveResp is monotone in extra responses at the front. -/
theorem allCallsHaveResp_cons {ps qs : List GPart} (x : GPart)
    (h : allCallsHaveResp ps qs = true) : allCallsHaveResp ps (x :: qs) = true := by
  induction ps with
  | nil => rfl
  | cons p rest ih =>
    cases p with
    | text s =>
      simp only [allCallsHaveResp] at h ⊢
      exact ih h
    | inlineData d =>
      simp only [allCallsHaveResp] at h ⊢
      exact ih h
    | functionResponse m r =>
      simp only [allCallsHaveResp] at h ⊢
      exact ih h
    | functionCall n a =>
      simp only [allCallsHaveResp, Bool.and_eq_true, List.any_cons, Bool.or_eq_true] at h ⊢
      exact ⟨Or.inr h.1, ih h.2⟩

/-- allCallsHaveResp is monotone in extra responses at the back. -/
theorem allCallsHaveResp_append {ps qs ls : List GPart}
    (h : allCallsHaveResp ps qs = true) : allCallsHaveResp ps (qs ++ ls) = true := by
  induction ps with
  | nil => rfl
  | cons p rest ih =>
    cases p with
    | text s =>
      simp only [allCallsHaveResp] at h ⊢
      exact ih h
    | inlineData d =>
      simp only [allCallsHaveResp] at h ⊢
      exact ih h
    | functionResponse m r =>
      simp only [allCallsHaveResp] at h ⊢
      exact ih h
    | functionCall n a =>
      simp only [allCallsHaveResp, Bool.and_eq_true, List.any_append, Bool.or_eq_true] at h ⊢
      exact ⟨Or.inl h.1, ih h.2⟩

/-- The response parts produced by one dispatch phase contain no calls. -/
theorem dispatchParts_resps_no_calls (env : LoopEnv) :
    ∀ parts tc cc rt rend shot,
      ∀ p ∈ (dispatchParts env parts tc cc rt rend shot).resps, isFnCall p = false := by
  intro parts
  induction parts with
  | nil =>
    intro tc cc rt rend shot p hp
    simp [dispatchParts] at hp
  | cons q rest ih =>
    intro tc cc rt rend shot p hp
    cases q with
    | text s =>
      simp only [dispatchParts] at hp
      exact ih _ _ _ _ _ p hp
    | inlineData d =>
      simp only [dispatchParts] at hp
      exact ih _ _ _ _ _ p hp
    | functionResponse m r =>
      simp only [dispatchParts] at hp
      exact ih _ _ _ _ _ p hp
    | functionCall n a =>
      simp only [dispatchParts, List.mem_cons] at hp
      rcases hp with rfl | hp
      · rfl
      · exact ih _ _ _ _ _ p hp

/-- Every call of the dispatched parts receives a response part with its
name in the produced response list. -/
theorem dispatchParts_resps_answer (env : LoopEnv) :
    ∀ parts tc cc rt rend shot,
      allCallsHaveResp parts (dispatchParts env parts tc cc rt rend shot).resps = true := by
  intro parts
  induction parts with
  | nil => intro tc cc rt rend shot; rfl
  | cons q rest ih =>
    intro tc cc rt rend shot
    cases q with
    | text s =>
      simp only [dispatchParts, allCallsHaveResp]
      exact ih _ _ _ _ _
    | inlineData d =>
      simp only [dispatchParts, allCallsHaveResp]
      exact ih _ _ _ _ _
    | functionResponse m r =>
      simp only [dispatchParts, allCallsHaveResp]
      exact ih _ _ _ _ _
    | functionCall n a =>
      simp only [dispatchParts, allCallsHaveResp, Bool.and_eq_true, List.any_cons,
        Bool.or_eq_true, isRespTo]
      refine ⟨Or.inl (by simp), allCallsHaveResp_cons _ (ih _ _ _ _ _)⟩

/-- A dispatch phase over a turn containing a call produces at least one
response part. -/
theorem dispatchParts_resps_ne_nil (env : LoopEnv) :
    ∀ parts tc cc rt rend shot, parts.any isFnCall = true →
      (dispatchParts env parts tc cc rt rend shot).resps ≠ [] := by
  intro parts
  induction parts with
  | nil => intro tc cc rt rend shot h; simp at h
  | cons q rest ih =>
    intro tc cc rt rend shot h
    cases q with
    | text s =>
      simp only [List.any_cons, isFnCall, Bool.false_or] at h
      simp only [dispatchParts]
      exact ih _ _ _ _ _ h
    | inlineData d =>
      simp only [List.any_cons, isFnCall, Bool.false_or] at h
      simp only [dispatchParts]
      exact ih _ _ _ _ _ h
    | functionResponse m r =>
      simp only [List.any_cons, isFnCall, Bool.false_or] at h
      simp only [dispatchParts]
      exact ih _ _ _ _ _ h
    | functionCall n a =>
      simp [dispatchParts]

/-- flatParts distributes over concatenation. -/
theorem flatParts_append (cs ds : List GContent) :
    flatParts (cs ++ ds) = flatParts cs ++ flatParts ds := by
  simp [flatParts]

/-- flatParts of a single turn is its part list. -/
theorem flatParts_single (r : String) (ps : List GPart) : flatParts [⟨r, ps⟩] = ps := by
  simp [flatParts]

/-- Unfolding of the loop on a candidate turn that contains a call. -/
theorem runLoop_succ_candidate_calls (env : LoopEnv) (fuel rq tc cc : ℕ)
    (contents : List GContent) (rt rend : String) (shot : Option String)
    (parts : List GPart) (d : DispatchOut)
    (hscript : env.script rq = GResp.candidate parts)
    (hd : dispatchParts env parts tc cc rt rend shot = d)
    (hfc : parts.any isFnCall = true)
    (hne : d.resps ≠ []) :
    runLoop env (fuel + 1) rq tc cc contents rt rend shot
      = { runLoop env fuel (rq + 1) d.tc d.cc
            ((contents ++ [⟨"model", parts⟩]) ++
             [⟨"user", d.resps ++ (match d.shot with
               | some s => [GPart.inlineData (splitShotData s)]
               | none => [])⟩])
            d.responseText d.rendered d.shot with
          snapshots := contents ::
            (runLoop env fuel (rq + 1) d.tc d.cc
              ((contents ++ [⟨"model", parts⟩]) ++
               [⟨"user", d.resps ++ (match d.shot with
                 | some s => [GPart.inlineData (splitShotData s)]
                 | none => [])⟩])
              d.responseText d.rendered d.shot).snapshots } := by
  subst hd
  have hemp : (dispatchParts env parts tc cc rt rend shot).resps.isEmpty = false := by
    cases hresps : (dispatchParts env parts tc cc rt rend shot).resps with
    | nil => exact absurd hresps hne
    | cons a l => rfl
  simp [runLoop, hscript, hfc, hemp]

/-- Unfolding of the loop on an endpoint-level confirmation the user
accepts. -/
theorem runLoop_succ_confirm_accept (env : LoopEnv) (fuel rq tc cc : ℕ)
    (contents : List GContent) (rt rend : String) (shot : Option String)
    (message : Option String)
    (hscript : env.script rq = GResp.confirmRequired message)
    (hcf : env.confirm cc = true) :
    runLoop env (fuel + 1) rq tc cc contents rt rend shot
      = { runLoop env fuel (rq + 1) tc (cc + 1)
            (contents ++
             [⟨"user", [GPart.text "CONFIRMED: User approved this action. Please proceed."]⟩])
            rt rend shot with
          snapshots := contents ::
            (runLoop env fuel (rq + 1) tc (cc + 1)
              (contents ++
               [⟨"user", [GPart.text "CONFIRMED: User approved this action. Please proceed."]⟩])
              rt rend shot).snapshots } := by
  simp [runLoop, hscript, hcf]

/-- Parts of the seeded conversation contain no function calls. -/
theorem seedContents_no_calls (msgs : List ChatMsg) :
    ∀ p ∈ flatParts (seedContents msgs), isFnCall p = false := by
  induction msgs with
  | nil => intro p hp; simp [seedContents, flatParts] at hp
  | cons m rest ih =>
    intro p hp
    have hstep : flatParts (seedContents (m :: rest))
        = GPart.text m.content :: flatParts (seedContents rest) := by
      simp [seedContents, flatParts]
    rw [hstep] at hp
    rcases List.mem_cons.mp hp with rfl | hp
    · rfl
    · exact ih p hp

/-- flatParts of a cons. -/
theorem flatParts_cons (c : GContent) (cs : List GContent) :
    flatParts (c :: cs) = c.parts ++ flatParts cs := by
  simp [flatParts]

/-- attachShot only ever adds one inline image part. -/
theorem attachShot_flat_mem (d : String) :
    ∀ (cs : List GContent) (p : GPart), p ∈ flatParts (attachShot cs d) →
      p ∈ flatParts cs ∨ p = GPart.inlineData d := by
  intro cs
  induction cs with
  | nil => intro p hp; simp [attachShot, flatParts] at hp
  | cons c rest ih =>
    intro p hp
    cases rest with
    | nil =>
      by_cases hr : c.role = "user"
      · rw [show attachShot [c] d = [⟨c.role, c.parts ++ [GPart.inlineData d]⟩] by
          simp [attachShot, hr]] at hp
        rw [flatParts_single] at hp
        rcases List.mem_append.mp hp with h1 | h1
        · exact Or.inl (by simpa [flatParts] using h1)
        · right; simpa using h1
      · rw [show attachShot [c] d = [c] by simp [attachShot, hr]] at hp
        exact Or.inl hp
    | cons c2 rest2 =>
      rw [show attachShot (c :: c2 :: rest2) d = c :: attachShot (c2 :: rest2) d by
        simp [attachShot]] at hp
      rw [flatParts_cons] at hp
      rcases List.mem_append.mp hp with h1 | h1
      · exact Or.inl (by rw [flatParts_cons]; exact List.mem_append.mpr (Or.inl h1))
      · rcases ih p h1 with h2 | h2
        · exact Or.inl (by rw [flatParts_cons]; exact List.mem_append.mpr (Or.inr h2))
        · exact Or.inr h2

/-- The seeded conversation with the initial screenshot attached is
answered. -/
theorem initial_contents_answered (msgs : List ChatMsg) (d : String) :
    callsAnswered (flatParts (attachShot (seedContents msgs) d)) = true := by
  apply callsAnswered_of_no_calls
  intro p hp
  rcases attachShot_flat_mem d (seedContents msgs) p hp with h | rfl
  · exact seedContents_no_calls msgs p h
  · rfl

/-- Loop invariant: starting from an answered conversation, the
conversation at every model request together with the final conversation
forms a prefix chain, and the conversation at every model request is
answered. -/
theorem runLoop_invariant (env : LoopEnv) :
    ∀ fuel rq tc cc contents rt rend shot,
      callsAnswered (flatParts contents) = true →
      List.Chain' (· <+: ·)
          (contents :: snapshotTrace (runLoop env fuel rq tc cc contents rt rend shot)) ∧
      ∀ c ∈ (runLoop env fuel rq tc cc contents rt rend shot).snapshots,
        callsAnswered (flatParts c) = true := by
  intro fuel
  induction fuel with
  | zero =>
    intro rq tc cc contents rt rend shot hans
    refine ⟨?_, ?_⟩
    · have htr : snapshotTrace (runLoop env 0 rq tc cc contents rt rend shot) = [contents] := by
        simp [runLoop, snapshotTrace]
      rw [htr]
      exact List.chain'_cons.mpr ⟨prefixSelf contents, List.chain'_singleton _⟩
    · intro c hc
      have hsn : (runLoop env 0 rq tc cc contents rt rend shot).snapshots = [] := by
        simp [runLoop]
      rw [hsn] at hc
      simp at hc
  | succ fuel ih =>
    intro rq tc cc contents rt rend shot hans
    cases hscript : env.script rq with
    | httpError msg =>
      have hsn : (runLoop env (fuel + 1) rq tc cc contents rt rend shot).snapshots
          = [contents] := by simp [runLoop, hscript]
      have hco : (runLoop env (fuel + 1) rq tc cc contents rt rend shot).contents
          = contents := by simp [runLoop, hscript]
      refine ⟨?_, ?_⟩
      · simp only [snapshotTrace]
        rw [hsn, hco]
        exact List.chain'_cons.mpr ⟨prefixSelf contents,
          List.chain'_cons.mpr ⟨prefixSelf contents, List.chain'_singleton _⟩⟩
      · intro c hc
        rw [hsn] at hc
        rcases List.mem_singleton.mp hc with rfl
        exact hans
    | blocked reason =>
      have hsn : (runLoop env (fuel + 1) rq tc cc contents rt rend shot).snapshots
          = [contents] := by simp [runLoop, hscript]
      have hco : (runLoop env (fuel + 1) rq tc cc contents rt rend shot).contents
          = contents := by simp [runLoop, hscript]
      refine ⟨?_, ?_⟩
      · simp only [snapshotTrace]
        rw [hsn, hco]
        exact List.chain'_cons.mpr ⟨prefixSelf contents,
          List.chain'_cons.mpr ⟨prefixSelf contents, List.chain'_singleton _⟩⟩
      · intro c hc
        rw [hsn] at hc
        rcases List.mem_singleton.mp hc with rfl
        exact hans
    | noCandidate =>
      have hsn : (runLoop env (fuel + 1) rq tc cc contents rt rend shot).snapshots
          = [contents] := by simp [runLoop, hscript]
      have hco : (runLoop env (fuel + 1) rq tc cc contents rt rend shot).contents
          = contents := by simp [runLoop, hscript]
      refine ⟨?_, ?_⟩
      · simp only [snapshotTrace]
        rw [hsn, hco]
        exact List.chain'_cons.mpr ⟨prefixSelf contents,
          List.chain'_cons.mpr ⟨prefixSelf contents, List.chain'_singleton _⟩⟩
      · intro c hc
        rw [hsn] at hc
        rcases List.mem_singleton.mp hc with rfl
        exact hans
    | confirmRequired message =>
      by_cases hcf : env.confirm cc = true
      · rw [runLoop_succ_confirm_accept env fuel rq tc cc contents rt rend shot message
          hscript hcf]
        have hans1 : callsAnswered (flatParts (contents ++
            [⟨"user", [GPart.text "CONFIRMED: User approved this action. Please proceed."]⟩]))
            = true := by
          rw [flatParts_append, flatParts_single]
          exact callsAnswered_append hans (by decide)
        obtain ⟨hch, hmem⟩ := ih (rq + 1) tc (cc + 1) (contents ++
          [⟨"user", [GPart.text "CONFIRMED: User approved this action. Please proceed."]⟩])
          rt rend shot hans1
        refine ⟨?_, ?_⟩
        · simp only [snapshotTrace]
          refine List.chain'_cons.mpr ⟨prefixSelf contents, ?_⟩
          exact chainWeaken (prefixExtend contents _) (by simpa [snapshotTrace] using hch)
        · intro c hc
          simp only [List.mem_cons] at hc
          rcases hc with rfl | hc
          · exact hans
          · exact hmem c hc
      · have hsn : (runLoop env (fuel + 1) rq tc cc contents rt rend shot).snapshots
            = [contents] := by simp [runLoop, hscript, hcf]
        have hco : (runLoop env (fuel + 1) rq tc cc contents rt rend shot).contents
            = contents := by simp [runLoop, hscript, hcf]
        refine ⟨?_, ?_⟩
        · simp only [snapshotTrace]
          rw [hsn, hco]
          exact List.chain'_cons.mpr ⟨prefixSelf contents,
            List.chain'_cons.mpr ⟨prefixSelf contents, List.chain'_singleton _⟩⟩
        · intro c hc
          rw [hsn] at hc
          rcases List.mem_singleton.mp hc with rfl
          exact hans
    | candidate parts =>
      by_cases hfc : parts.any isFnCall = true
      · have hne := dispatchParts_resps_ne_nil env parts tc cc rt rend shot hfc
        rw [runLoop_succ_candidate_calls env fuel rq tc cc contents rt rend shot parts
          (dispatchParts env parts tc cc rt rend shot) hscript rfl hfc hne]
        have hans2 : callsAnswered (flatParts ((contents ++ [⟨"model", parts⟩]) ++
            [⟨"user", (dispatchParts env parts tc cc rt rend shot).resps ++
              (match (dispatchParts env parts tc cc rt rend shot).shot with
               | some s => [GPart.inlineData (splitShotData s)]
               | none => [])⟩])) = true := by
          rw [flatParts_append, flatParts_append, flatParts_single, flatParts_single,
            List.append_assoc]
          apply callsAnswered_append hans
          apply callsAnswered_of_allCalls
          · exact allCallsHaveResp_append (dispatchParts_resps_answer env parts tc cc rt rend shot)
          · apply callsAnswered_of_no_calls
            intro p hp
            rcases List.mem_append.mp hp with h1 | h1
            · exact dispatchParts_resps_no_calls env parts tc cc rt rend shot p h1
            · cases hsh : (dispatchParts env parts tc cc rt rend shot).shot with
              | some s =>
                rw [hsh] at h1
                have : p = GPart.inlineData (splitShotData s) := by simpa using h1
                rw [this]; rfl
              | none => rw [hsh] at h1; simp at h1
        obtain ⟨hch, hmem⟩ := ih (rq + 1) (dispatchParts env parts tc cc rt rend shot).tc
          (dispatchParts env parts tc cc rt rend shot).cc
          ((contents ++ [⟨"model", parts⟩]) ++
            [⟨"user", (dispatchParts env parts tc cc rt rend shot).resps ++
              (match (dispatchParts env parts tc cc rt rend shot).shot with
               | some s => [GPart.inlineData (splitShotData s)]
               | none => [])⟩])
          (dispatchParts env parts tc cc rt rend shot).responseText
          (dispatchParts env parts tc cc rt rend shot).rendered
          (dispatchParts env parts tc cc rt rend shot).shot hans2
        refine ⟨?_, ?_⟩
        · simp only [snapshotTrace]
          refine List.chain'_cons.mpr ⟨prefixSelf contents, ?_⟩
          refine chainWeaken ?_ (by simpa [snapshotTrace] using hch)
          exact ⟨[⟨"model", parts⟩] ++
            [⟨"user", (dispatchParts env parts tc cc rt rend shot).resps ++
              (match (dispatchParts env parts tc cc rt rend shot).shot with
               | some s => [GPart.inlineData (splitShotData s)]
               | none => [])⟩], by simp⟩
        · intro c hc
          simp only [List.mem_cons] at hc
          rcases hc with rfl | hc
          · exact hans
          · exact hmem c hc
      · have hsn : (runLoop env (fuel + 1) rq tc cc contents rt rend shot).snapshots
            = [contents] := by simp [runLoop, hscript, hfc]
        have hco : (runLoop env (fuel + 1) rq tc cc contents rt rend shot).contents
            = contents ++ [⟨"model", parts⟩] := by simp [runLoop, hscript, hfc]
        refine ⟨?_, ?_⟩
        · simp only [snapshotTrace]
          rw [hsn, hco]
          exact List.chain'_cons.mpr ⟨prefixSelf contents,
            List.chain'_cons.mpr ⟨prefixExtend contents _, List.chain'_singleton _⟩⟩
        · intro c hc
          rw [hsn] at hc
          rcases List.mem_singleton.mp hc with rfl
          exact hans

/-- C5: in every run, the conversation never shrinks (the conversation
values at successive model requests, and the final conversation, form a
chain under the list-prefix order), and at every model request every
function call part already in the conversation is followed later in the
part sequence by a function response part with the same function name: no
unanswered call is ever sent to the model. -/
theorem conversation_monotone_and_calls_answered (env : LoopEnv) (msgs : List ChatMsg) :
    List.Chain' (· <+: ·) (snapshotTrace (streamWithGeminiComputerUse env msgs)) ∧
    ∀ c ∈ (streamWithGeminiComputerUse env msgs).snapshots,
      callsAnswered (flatParts c) = true := by
  cases hs : shotField (env.tool 0) with
  | none =>
    have hsn : (streamWithGeminiComputerUse env msgs).snapshots = [] := by
      simp [streamWithGeminiComputerUse, hs]
    have hco : (streamWithGeminiComputerUse env msgs).contents = [] := by
      simp [streamWithGeminiComputerUse, hs]
    refine ⟨?_, ?_⟩
    · simp only [snapshotTrace]
      rw [hsn, hco]
      exact List.chain'_singleton _
    · intro c hc
      rw [hsn] at hc
      simp at hc
  | some s =>
    have he : streamWithGeminiComputerUse env msgs
        = runLoop env maxTurns 0 1 0 (attachShot (seedContents msgs) (splitShotData s))
            "" "" (some s) := by
      simp [streamWithGeminiComputerUse, hs]
    rw [he]
    have h := runLoop_invariant env maxTurns 0 1 0
      (attachShot (seedContents msgs) (splitShotData s)) "" "" (some s)
      (initial_contents_answered msgs (splitShotData s))
    exact ⟨h.1.tail, h.2⟩

/-- The loop issues at most one model request per unit of turn budget. -/
theorem runLoop_requests_le (env : LoopEnv) :
    ∀ fuel rq tc cc contents rt rend shot,
      (runLoop env fuel rq tc cc contents rt rend shot).requests ≤ rq + fuel := by
  intro fuel
  induction fuel with
  | zero =>
    intro rq tc cc contents rt rend shot
    simp [runLoop]
  | succ fuel ih =>
    intro rq tc cc contents rt rend shot
    cases hscript : env.script rq with
    | httpError msg =>
      have : (runLoop env (fuel + 1) rq tc cc contents rt rend shot).requests = rq + 1 := by
        simp [runLoop, hscript]
      omega
    | blocked reason =>
      have : (runLoop env (fuel + 1) rq tc cc contents rt rend shot).requests = rq + 1 := by
        simp [runLoop, hscript]
      omega
    | noCandidate =>
      have : (runLoop env (fuel + 1) rq tc cc contents rt rend shot).requests = rq + 1 := by
        simp [runLoop, hscript]
      omega
    | confirmRequired message =>
      by_cases hcf : env.confirm cc = true
      · rw [runLoop_succ_confirm_accept env fuel rq tc cc contents rt rend shot message
          hscript hcf]
        have := ih (rq + 1) tc (cc + 1) (contents ++
          [⟨"user", [GPart.text "CONFIRMED: User approved this action. Please proceed."]⟩])
          rt rend shot
        dsimp only
        omega
      · have : (runLoop env (fuel + 1) rq tc cc contents rt rend shot).requests = rq + 1 := by
          simp [runLoop, hscript, hcf]
        omega
    | candidate parts =>
      by_cases hfc : parts.any isFnCall = true
      · have hne := dispatchParts_resps_ne_nil env parts tc cc rt rend shot hfc
        rw [runLoop_succ_candidate_calls env fuel rq tc cc contents rt rend shot parts
          (dispatchParts env parts tc cc rt rend shot) hscript rfl hfc hne]
        have := ih (rq + 1) (dispatchParts env parts tc cc rt rend shot).tc
          (dispatchParts env parts tc cc rt rend shot).cc
          ((contents ++ [⟨"model", parts⟩]) ++
            [⟨"user", (dispatchParts env parts tc cc rt rend shot).resps ++
              (match (dispatchParts env parts tc cc rt rend shot).shot with
               | some s => [GPart.inlineData (splitShotData s)]
               | none => [])⟩])
          (dispatchParts env parts tc cc rt rend shot).responseText
          (dispatchParts env parts tc cc rt rend shot).rendered
          (dispatchParts env parts tc cc rt rend shot).shot
        dsimp only
        omega
      · have : (runLoop env (fuel + 1) rq tc cc contents rt rend shot).requests = rq + 1 := by
          simp [runLoop, hscript, hfc]
        omega

/-- A model response of exactly one function call is a candidate with a
singleton call part list. -/
theorem isSingleCallResp_shape {r : GResp} (h : isSingleCallResp r = true) :
    ∃ n a, r = GResp.candidate [GPart.functionCall n a] := by
  cases r with
  | httpError msg => simp [isSingleCallResp] at h
  | blocked reason => simp [isSingleCallResp] at h
  | noCandidate => simp [isSingleCallResp] at h
  | confirmRequired message => simp [isSingleCallResp] at h
  | candidate parts =>
    cases parts with
    | nil => simp [isSingleCallResp] at h
    | cons p rest =>
      cases rest with
      | cons q rest2 => cases p <;> simp [isSingleCallResp] at h
      | nil =>
        cases p with
        | functionCall n a => exact ⟨n, a, rfl⟩
        | text s => simp [isSingleCallResp] at h
        | inlineData dd => simp [isSingleCallResp] at h
        | functionResponse m rr => simp [isSingleCallResp] at h

/-- When every scripted turn within the budget returns exactly one function
call and no terminal text, the loop exhausts its budget: it ends in
maxTurnsReached having issued exactly one request per unit of budget. -/
theorem runLoop_all_single_calls (env : LoopEnv) :
    ∀ fuel rq tc cc contents rt rend shot,
      (∀ k, k < rq + fuel → isSingleCallResp (env.script k) = true) →
      (runLoop env fuel rq tc cc contents rt rend shot).outcome = TermReason.maxTurnsReached ∧
      (runLoop env fuel rq tc cc contents rt rend shot).requests = rq + fuel := by
  intro fuel
  induction fuel with
  | zero =>
    intro rq tc cc contents rt rend shot _h
    constructor
    · simp [runLoop]
    · simp [runLoop]
  | succ fuel ih =>
    intro rq tc cc contents rt rend shot h
    obtain ⟨n, a, hscript⟩ := isSingleCallResp_shape (h rq (by omega))
    have hfc : ([GPart.functionCall n a]).any isFnCall = true := by simp [isFnCall]
    have hne := dispatchParts_resps_ne_nil env [GPart.functionCall n a] tc cc rt rend shot hfc
    rw [runLoop_succ_candidate_calls env fuel rq tc cc contents rt rend shot
      [GPart.functionCall n a] (dispatchParts env [GPart.functionCall n a] tc cc rt rend shot)
      hscript rfl hfc hne]
    have hrec := ih (rq + 1) (dispatchParts env [GPart.functionCall n a] tc cc rt rend shot).tc
      (dispatchParts env [GPart.functionCall n a] tc cc rt rend shot).cc
      ((contents ++ [⟨"model", [GPart.functionCall n a]⟩]) ++
        [⟨"user", (dispatchParts env [GPart.functionCall n a] tc cc rt rend shot).resps ++
          (match (dispatchParts env [GPart.functionCall n a] tc cc rt rend shot).shot with
           | some s => [GPart.inlineData (splitShotData s)]
           | none => [])⟩])
      (dispatchParts env [GPart.functionCall n a] tc cc rt rend shot).responseText
      (dispatchParts env [GPart.functionCall n a] tc cc rt rend shot).rendered
      (dispatchParts env [GPart.functionCall n a] tc cc rt rend shot).shot
      (fun k hk => h k (by omega))
    refine ⟨hrec.1, ?_⟩
    rw [hrec.2]
    omega

/-- C9: every run issues at most maxTurns = 30 model requests and reaches
exactly one terminal outcome (the run function is total); and when the
initial screenshot succeeds and each of the first 30 scripted turns returns
exactly one function call with no terminal text, the loop stops with the
max-turns outcome after the 30th request, not the 31st. -/
theorem agent_loop_bounded_turns (env : LoopEnv) (msgs : List ChatMsg) :
    (streamWithGeminiComputerUse env msgs).requests ≤ maxTurns ∧
    (shotField (env.tool 0) ≠ none →
      (∀ k, k < maxTurns → isSingleCallResp (env.script k) = true) →
      (streamWithGeminiComputerUse env msgs).outcome = TermReason.maxTurnsReached ∧
      (streamWithGeminiComputerUse env msgs).requests = maxTurns) := by
  cases hs : shotField (env.tool 0) with
  | none =>
    have hrq : (streamWithGeminiComputerUse env msgs).requests = 0 := by
      simp [streamWithGeminiComputerUse, hs]
    refine ⟨by omega, ?_⟩
    intro hne _hscript
    exact absurd rfl hne
  | some s =>
    have he : streamWithGeminiComputerUse env msgs
        = runLoop env maxTurns 0 1 0 (attachShot (seedContents msgs) (splitShotData s))
            "" "" (some s) := by
      simp [streamWithGeminiComputerUse, hs]
    rw [he]
    refine ⟨?_, ?_⟩
    · have := runLoop_requests_le env maxTurns 0 1 0
        (attachShot (seedContents msgs) (splitShotData s)) "" "" (some s)
      omega
    · intro _hne hscript
      have := runLoop_all_single_calls env maxTurns 0 1 0
        (attachShot (seedContents msgs) (splitShotData s)) "" "" (some s)
        (fun k hk => hscript k (by omega))
      exact ⟨this.1, by rw [this.2]; omega⟩

/-- C9 witness: a scripted run of 30 single-call turns reaches the
max-turns outcome at exactly 30 requests. -/
theorem agent_loop_bounded_turns_witness :
    (streamWithGeminiComputerUse c9env [⟨true, "go"⟩]).outcome = TermReason.maxTurnsReached ∧
    (streamWithGeminiComputerUse c9env [⟨true, "go"⟩]).requests = maxTurns :=
  (agent_loop_bounded_turns c9env [⟨true, "go"⟩]).2 (by decide) (by decide)

/-- C10: the content-script executor is total at its public interface.
Every invocation yields a result object (direct or promised) carrying a
boolean success flag; an action name outside the recognized switch cases
yields the structured Unknown action failure, and any exception thrown
inside the switch body is caught and returned as an Error failure result
rather than propagating. -/
theorem executePageAction_total (action : String) (target value selector : Option String)
    (coordinates : Option (ℤ × ℤ)) (direction : Option String) (amount : Option ℤ)
    (key : Option String) (keys : Option (List String)) (destination : Option (ℤ × ℤ))
    (dom : Dom) :
    (action ∉ knownPageActions →
      executePageAction action target value selector coordinates direction amount key keys
          destination dom
        = PageOutcome.direct { success := false, message := some ("Unknown action: " ++ action) }) ∧
    (∀ e, executePageActionBody action target value selector coordinates direction amount key keys
          destination dom = Except.error e →
      executePageAction action target value selector coordinates direction amount key keys
          destination dom
        = PageOutcome.direct { success := false, message := some ("Error: " ++ e) }) ∧
    (∃ r : PageResult,
      executePageAction action target value selector coordinates direction amount key keys
          destination dom = PageOutcome.direct r ∨
      executePageAction action target value selector coordinates direction amount key keys
          destination dom = PageOutcome.promise r) := by
  refine ⟨?_, ?_, ?_⟩
  · intro h
    have hbody : executePageActionBody action target value selector coordinates direction amount
        key keys destination dom
        = Except.ok (PageOutcome.direct
            { success := false, message := some ("Unknown action: " ++ action) }) := by
      unfold executePageActionBody
      split <;> first | rfl | simp_all [knownPageActions]
    unfold executePageAction
    rw [hbody]
  · intro e he
    unfold executePageAction
    rw [he]
  · cases hout : executePageAction action target value selector coordinates direction amount key
        keys destination dom with
    | direct r => exact ⟨r, Or.inl rfl⟩
    | promise r => exact ⟨r, Or.inr rfl⟩

/-- C10 witness: an unrecognized action name on an inert DOM yields the
structured Unknown action failure, and a throwing selector query is caught
as an Error failure. -/
theorem executePageAction_total_witness :
    executePageAction "transmogrify" none none none none none none none none none trivialDom
      = PageOutcome.direct
          { success := false, message := some ("Unknown action: " ++ "transmogrify") } :=
  (executePageAction_total "transmogrify" none none none none none none none none none
    trivialDom).1 (by decide)
